import Mathlib

/-! The CRD catalog of crdviz (`main.go`).

A shallow embedding of the catalog functions of `main.go`
(`getCrdApiGroups`, `getCrds`, `getCrdByName`, `derefBool`) and of the two
handlers `handleFilterCrds` and `handleShowCrd`, followed by theorems about
them.

Conventions of the embedding.

* A Go pointer `*T` is `Option T`; `nil` is `none`.
* A Go function that either returns or panics returns `Except Fault α`;
  `Except.error` is the panic, with the value handed to `panic` or the
  runtime error of a nil dereference.
* The Kubernetes clientset and the parsed HTML templates are package-level
  variables set up in `init`; they are external to `main.go` and are passed
  to each function as explicit arguments (`Client`, `Template`).
* A Go `map[string]bool` is an association list with distinct keys; the
  order in which `range` visits its keys is chosen by the runtime and is an
  explicit argument (`RangeOrder`).
-/

namespace Crdviz

/-! ## Data model (the fields of the Kubernetes types that `main.go` reads) -/

/-- The root of an OpenAPI v3 schema document (`apiextensionsv1.JSONSchemaProps`).
`main.go` only passes it on to the template. -/
structure JSONSchemaProps where
  Title : String
  Description : String
  Nullable : Bool
  deriving DecidableEq, Repr

/-- The `apiextensionsv1.CustomResourceValidation` record: a pointer to the schema root. -/
structure CustomResourceValidation where
  OpenAPIV3Schema : Option JSONSchemaProps
  deriving DecidableEq, Repr

/-- The `apiextensionsv1.CustomResourceDefinitionVersion` record. `Schema` is a pointer. -/
structure CustomResourceDefinitionVersion where
  Name : String
  Storage : Bool
  Schema : Option CustomResourceValidation
  deriving DecidableEq, Repr

/-- The `apiextensionsv1.CustomResourceDefinitionSpec` record. -/
structure CustomResourceDefinitionSpec where
  Group : String
  Versions : List CustomResourceDefinitionVersion
  deriving DecidableEq, Repr

/-- The `apiextensionsv1.CustomResourceDefinition` record; `Name` is `ObjectMeta.Name`. -/
structure CustomResourceDefinition where
  Name : String
  Spec : CustomResourceDefinitionSpec
  deriving DecidableEq, Repr

/-- The `CrdFilter` struct of `main.go`. -/
structure CrdFilter where
  ApiGroup : String
  deriving DecidableEq, Repr

/-! ## Panics, the cluster client, templates, requests and responses -/

/-- What unwinds a Go function instead of a return value. -/
inductive Fault where
  /-- An explicit `panic(msg)`. -/
  | panicked (msg : String)
  /-- The runtime error of selecting a field through a nil pointer. -/
  | nilDereference
  deriving DecidableEq, Repr

/-- The two calls `main.go` makes on `apiextensionsClient`: `List` of all
CRDs (`crdsList.Items` or an error) and `Get` of one CRD by name. The
`String` of a failure is `err.Error()`. -/
structure Client where
  list : Except String (List CustomResourceDefinition)
  get : String → Except String CustomResourceDefinition

/-- A cluster holding exactly the records `items`: `List` returns them all;
`Get` returns the record of that name, and fails when no record carries the
name. The text of that failure is `refusal crdName`: it is written by the
client library (which refuses some names before any request is sent) or by
the API server, and `main.go` hands it to `panic` unread. -/
def clusterClient (refusal : String → String) (items : List CustomResourceDefinition) :
    Client where
  list := .ok items
  get := fun crdName =>
    match items.find? (fun crd => crd.Name == crdName) with
    | some crd => .ok crd
    | none => .error (refusal crdName)

/-- A sample of failure texts: the not-found answer of the API server, as it
reads for a name made of letters, digits, dots and dashes. -/
def notFoundMessage (crdName : String) : String :=
  "customresourcedefinitions.apiextensions.k8s.io \"" ++ crdName ++ "\" not found"

/-- A parsed template: `Execute` on the data either produces the page or fails. -/
abbrev Template (α : Type) := α → Except String String

/-- The URL query of a request, as key and value pairs. -/
abbrev Query := List (String × String)

/-- The call `query.Get(key)`: the first value of the key, `""` when the key is absent. -/
def Query.Get (query : Query) (key : String) : String :=
  match query.find? (fun kv => kv.1 == key) with
  | some kv => kv.2
  | none => ""

/-- What a handler writes to its `http.ResponseWriter`. -/
inductive Response where
  /-- The call `http.Error(w, msg, code)`. -/
  | httpError (msg : String) (code : Nat)
  /-- The output of a template execution that succeeded. -/
  | page (body : String)
  deriving DecidableEq, Repr

/-- The constant `http.StatusBadRequest`. -/
def StatusBadRequest : Nat := 400

/-- The constant `http.StatusInternalServerError`. -/
def StatusInternalServerError : Nat := 500

/-! ## Go maps -/

/-- A non-nil `map[string]bool` value: its entries, one per key. -/
abbrev MapEntries := List (String × Bool)

/-- The assignment `m[key] = value` on the entries of a map: the entry of
an existing key is overwritten in place, a new key gets a new entry. -/
def mapAssign : MapEntries → String → Bool → MapEntries
  | [], key, value => [(key, value)]
  | (k, v) :: rest, key, value =>
    if k = key then (k, value) :: rest else (k, v) :: mapAssign rest key value

/-- A `map[string]bool` variable: `none` is the nil map. -/
abbrev GoMap := Option MapEntries

/-- The call `make(map[string]bool)`: an empty, non-nil map. -/
def makeMap : GoMap := some []

/-- The keys of a map, one per entry (`[]` for the nil map). -/
def GoMap.keys : GoMap → List String
  | none => []
  | some entries => entries.map Prod.fst

/-- The order in which one `range` loop visits the keys of a map. Go leaves
it unspecified; every key is visited exactly once. -/
structure RangeOrder where
  visit : List String → List String
  visit_perm : ∀ keys, (visit keys).Perm keys

/-- The range order that visits keys in the order they were first assigned. -/
def RangeOrder.insertion : RangeOrder where
  visit := id
  visit_perm := fun _ => List.Perm.refl _

/-- The range order that visits keys last-assigned first. -/
def RangeOrder.reversed : RangeOrder where
  visit := List.reverse
  visit_perm := fun keys => List.reverse_perm keys

/-! ## The functions of `main.go` -/

/-- The body of the first loop of `getCrdApiGroups` (lines 263-269): when
the map is not nil, `crdApiGroups[crd.Spec.Group] = true`. -/
def getCrdApiGroups.record (crdApiGroups : GoMap) (crd : CustomResourceDefinition) : GoMap :=
  match crdApiGroups with
  | some entries => some (mapAssign entries crd.Spec.Group true)
  | none => none

/-- The function `getCrdApiGroups` (lines 254-278): list all CRDs (panic on
an error), record every `Spec.Group` as a key of a map, then append the keys
of the map, in range order, to an empty slice. -/
def getCrdApiGroups (client : Client) (order : RangeOrder) : Except Fault (List String) :=
  match client.list with
  | .error err => .error (.panicked err)
  | .ok items =>
    let crdApiGroups := items.foldl getCrdApiGroups.record makeMap
    let crdApiGroupNames := (order.visit crdApiGroups.keys).foldl
      (fun names groupName => names ++ [groupName]) []
    .ok crdApiGroupNames

/-- The function `getCrds` (lines 280-299): list all CRDs (panic on an
error), and append to an empty slice every record that the `continue` on
`crd.Spec.Group != filter.ApiGroup` does not skip. -/
def getCrds (client : Client) (filter : CrdFilter) :
    Except Fault (List CustomResourceDefinition) :=
  match client.list with
  | .error err => .error (.panicked err)
  | .ok items =>
    .ok (items.foldl
      (fun filteredCrds crd =>
        if crd.Spec.Group ≠ filter.ApiGroup then filteredCrds else filteredCrds ++ [crd])
      [])

/-- The function `getCrdByName` (lines 301-310): get the CRD of that name,
panic with the error text when the call fails. -/
def getCrdByName (client : Client) (crdName : String) :
    Except Fault CustomResourceDefinition :=
  match client.get crdName with
  | .error err => .error (.panicked err)
  | .ok crd => .ok crd

/-- The function `derefBool` (lines 324-329). -/
def derefBool (b : Option Bool) : Bool :=
  match b with
  | none => false
  | some v => v

/-- The version scan of `handleShowCrd` (lines 224-233): `schema` starts
nil; the first version with `Storage` set assigns
`version.Schema.OpenAPIV3Schema` to it (a nil dereference when
`version.Schema` is nil) and breaks the loop. -/
def handleShowCrd.storageSchema :
    List CustomResourceDefinitionVersion → Except Fault (Option JSONSchemaProps)
  | [] => .ok none
  | version :: rest =>
    if version.Storage then
      match version.Schema with
      | none => .error .nilDereference
      | some validation => .ok validation.OpenAPIV3Schema
    else handleShowCrd.storageSchema rest

/-- The data `handleFilterCrds` hands to its template. -/
structure FilterData where
  Crds : List CustomResourceDefinition
  deriving DecidableEq, Repr

/-- The data `handleShowCrd` hands to its template. -/
structure ShowData where
  CRD : CustomResourceDefinition
  Schema : Option JSONSchemaProps
  deriving DecidableEq, Repr

/-- The end of `handleFilterCrds` (lines 195-202): execute the template on
the data; a failed execution is answered with `http.Error`. -/
def handleFilterCrds.render (crdSelectBoxTmpl : Template FilterData) (data : FilterData) :
    Response :=
  match crdSelectBoxTmpl data with
  | .error _ => .httpError "Internal Server Error" StatusInternalServerError
  | .ok body => .page body

/-- The function `handleFilterCrds` (lines 171-204). -/
def handleFilterCrds (client : Client) (crdSelectBoxTmpl : Template FilterData)
    (query : Query) : Except Fault Response :=
  let filter : CrdFilter := { ApiGroup := query.Get "apiGroup" }
  if filter.ApiGroup = "" then
    .ok (.httpError "No API group selected" StatusBadRequest)
  else
    match getCrds client filter with
    | .error fault => .error fault
    | .ok crds => .ok (handleFilterCrds.render crdSelectBoxTmpl { Crds := crds })

/-- The end of `handleShowCrd` (lines 243-250): execute the template on the
data; a failed execution is answered with `http.Error`. -/
def handleShowCrd.render (crdPropertiesTmpl : Template ShowData) (data : ShowData) :
    Response :=
  match crdPropertiesTmpl data with
  | .error _ => .httpError "Internal Server Error" StatusInternalServerError
  | .ok body => .page body

/-- The function `handleShowCrd` (lines 206-252). -/
def handleShowCrd (client : Client) (crdPropertiesTmpl : Template ShowData)
    (query : Query) : Except Fault Response :=
  let crdName := query.Get "crdName"
  if crdName = "" then
    .ok (.httpError "No CRD selected" StatusBadRequest)
  else
    match getCrdByName client crdName with
    | .error fault => .error fault
    | .ok crd =>
      match handleShowCrd.storageSchema crd.Spec.Versions with
      | .error fault => .error fault
      | .ok schema => .ok (handleShowCrd.render crdPropertiesTmpl { CRD := crd, Schema := schema })

/-! ## The schema node as the renderer reads it

The template `templates/crd-properties.html`, to which `initTemplates`
hands `derefBool`, is not part of the source; what it reads of a schema node
is taken from the specification. -/

/-- Modelled from the spec: the attributes of a Schema Node that make its
type label (section 3): `type`, unset or one of the type names, and
`nullable`, an optional bool. The template that reads them is missing. -/
structure SchemaNode where
  type : Option String
  nullable : Option Bool
  deriving DecidableEq, Repr

/-- Modelled from the spec: whether the renderer treats a node as nullable
(section 3, `nullable`: optional bool, absent means false): the optional
marker read through `derefBool`, the helper `main.go` gives the missing
template for optional booleans. -/
def SchemaNode.isNullable (node : SchemaNode) : Bool :=
  derefBool node.nullable

/-- Modelled from the spec: the `typeLabel` of a Rendered Field View
(section 4.3 step 1 and section 3): the type of the node, the literal
`object` when the type is unset, combined with nullability as in
`string (nullable)`. The template that computes it is missing. -/
def SchemaNode.typeLabel (node : SchemaNode) : String :=
  let label := match node.type with
    | none => "object"
    | some typeName => typeName
  if node.isNullable then label ++ " (nullable)" else label

/-! ## Sample records -/

/-- A schema root. -/
def widgetSchema : JSONSchemaProps :=
  { Title := "Widget", Description := "A widget", Nullable := false }

/-- Another schema root. -/
def legacySchema : JSONSchemaProps :=
  { Title := "Widget", Description := "A widget of the old shape", Nullable := false }

/-- A version that is served but not stored. -/
def legacyVersion : CustomResourceDefinitionVersion :=
  { Name := "v1alpha1", Storage := false, Schema := some { OpenAPIV3Schema := some legacySchema } }

/-- A storage version with a schema. -/
def storedVersion : CustomResourceDefinitionVersion :=
  { Name := "v1", Storage := true, Schema := some { OpenAPIV3Schema := some widgetSchema } }

/-- A second version marked storage, with the other schema. -/
def secondStoredVersion : CustomResourceDefinitionVersion :=
  { Name := "v2", Storage := true, Schema := some { OpenAPIV3Schema := some legacySchema } }

/-- A storage version whose `Schema` pointer is nil. -/
def schemalessVersion : CustomResourceDefinitionVersion :=
  { Name := "v1", Storage := true, Schema := none }

/-- A storage version whose `Schema` is set and whose `OpenAPIV3Schema` is nil. -/
def rootlessVersion : CustomResourceDefinitionVersion :=
  { Name := "v1", Storage := true, Schema := some { OpenAPIV3Schema := none } }

/-- A well-formed record: the storage version is the second of three. -/
def widgetsCrd : CustomResourceDefinition :=
  { Name := "widgets.example.com",
    Spec := { Group := "example.com",
              Versions := [legacyVersion, storedVersion,
                { Name := "v1beta1", Storage := false, Schema := none }] } }

/-- A second record of the group `example.com`. -/
def gadgetsCrd : CustomResourceDefinition :=
  { Name := "gadgets.example.com",
    Spec := { Group := "example.com", Versions := [storedVersion] } }

/-- A record of another group. -/
def issuersCrd : CustomResourceDefinition :=
  { Name := "issuers.cert-manager.io",
    Spec := { Group := "cert-manager.io", Versions := [storedVersion] } }

/-- A record whose group differs from `example.com` in letter case only. -/
def shoutingCrd : CustomResourceDefinition :=
  { Name := "widgets.Example.com",
    Spec := { Group := "Example.com", Versions := [storedVersion] } }

/-- A record with two versions marked storage. -/
def twoStorageCrd : CustomResourceDefinition :=
  { Name := "doubles.example.com",
    Spec := { Group := "example.com",
              Versions := [legacyVersion, storedVersion, secondStoredVersion] } }

/-- A record with no version marked storage. -/
def noStorageCrd : CustomResourceDefinition :=
  { Name := "orphans.example.com",
    Spec := { Group := "example.com", Versions := [legacyVersion] } }

/-- A record whose storage version has a nil `Schema`. -/
def schemalessCrd : CustomResourceDefinition :=
  { Name := "bare.example.com",
    Spec := { Group := "example.com", Versions := [legacyVersion, schemalessVersion] } }

/-- The records of a sample cluster. -/
def sampleCrds : List CustomResourceDefinition :=
  [widgetsCrd, issuersCrd, gadgetsCrd, shoutingCrd, widgetsCrd]

/-- A template whose execution always succeeds. -/
def plainTemplate {α : Type} : Template α := fun _ => .ok "<html>"

/-! ## Lemmas on the loops -/

/-- A loop that appends each visited element to a slice appends the whole list. -/
theorem foldl_append_singleton {α : Type} (l acc : List α) :
    l.foldl (fun names x => names ++ [x]) acc = acc ++ l := by
  induction l generalizing acc with
  | nil => simp
  | cons x rest ih => simp [ih]

/-- The filtering loop of `getCrds` appends the records that pass the test. -/
theorem foldl_getCrds_loop (g : String) (items acc : List CustomResourceDefinition) :
    items.foldl
      (fun filteredCrds crd =>
        if crd.Spec.Group ≠ g then filteredCrds else filteredCrds ++ [crd]) acc
      = acc ++ items.filter (fun crd => decide (crd.Spec.Group = g)) := by
  induction items generalizing acc with
  | nil => simp
  | cons crd rest ih =>
    rw [List.foldl_cons, ih]
    by_cases h : crd.Spec.Group = g
    · simp [h]
    · simp [h]

/-- What `getCrds` returns on a cluster that lists `items`. -/
theorem getCrds_ok (client : Client) (items : List CustomResourceDefinition) (g : String)
    (h : client.list = .ok items) :
    getCrds client { ApiGroup := g } =
      .ok (items.filter (fun crd => decide (crd.Spec.Group = g))) := by
  simp only [getCrds, h]
  rw [foldl_getCrds_loop, List.nil_append]

/-- The keys after `m[key] = value`: unchanged when the key is present, one more otherwise. -/
theorem mapAssign_keys (entries : MapEntries) (key : String) (value : Bool) :
    (mapAssign entries key value).map Prod.fst =
      if key ∈ entries.map Prod.fst then entries.map Prod.fst
      else entries.map Prod.fst ++ [key] := by
  induction entries with
  | nil => simp [mapAssign]
  | cons e rest ih =>
    obtain ⟨k, v⟩ := e
    by_cases hk : k = key
    · simp [mapAssign, hk]
    · have hk2 : ¬ key = k := fun h => hk h.symm
      by_cases hm : key ∈ rest.map Prod.fst
      · simp only [mapAssign, hk, if_false, List.map_cons, ih, hm, if_true, List.mem_cons,
          or_true]
      · simp only [mapAssign, hk, if_false, List.map_cons, ih, hm, List.mem_cons, hk2,
          or_self, List.cons_append]

/-- The first loop of `getCrdApiGroups` keeps the keys of the map distinct. -/
theorem foldl_record_nodup (items : List CustomResourceDefinition) (entries : MapEntries)
    (h : (entries.map Prod.fst).Nodup) :
    (items.foldl getCrdApiGroups.record (some entries)).keys.Nodup := by
  induction items generalizing entries with
  | nil => exact h
  | cons crd rest ih =>
    apply ih
    rw [mapAssign_keys]
    split
    · exact h
    · rename_i hm
      exact List.Nodup.append h (List.nodup_singleton _) (by simpa using hm)

/-- After the first loop of `getCrdApiGroups` the keys are the keys before
it together with the groups of the records visited. -/
theorem foldl_record_mem (items : List CustomResourceDefinition) (entries : MapEntries)
    (g : String) :
    g ∈ (items.foldl getCrdApiGroups.record (some entries)).keys ↔
      g ∈ entries.map Prod.fst ∨ ∃ crd ∈ items, crd.Spec.Group = g := by
  induction items generalizing entries with
  | nil => simp [GoMap.keys]
  | cons crd rest ih =>
    simp only [List.foldl_cons, getCrdApiGroups.record, ih, mapAssign_keys]
    by_cases hm : crd.Spec.Group ∈ entries.map Prod.fst
    · simp only [hm, if_true, List.mem_cons, exists_eq_or_imp]
      constructor
      · rintro (h | h)
        · exact Or.inl h
        · exact Or.inr (Or.inr h)
      · rintro (h | h | h)
        · exact Or.inl h
        · exact Or.inl (h ▸ hm)
        · exact Or.inr h
    · simp only [hm, if_false, List.mem_append, List.mem_singleton, List.mem_cons,
        exists_eq_or_imp, List.not_mem_nil, or_false]
      constructor
      · rintro ((h | h) | h)
        · exact Or.inl h
        · exact Or.inr (Or.inl h.symm)
        · exact Or.inr (Or.inr h)
      · rintro (h | h | h)
        · exact Or.inl (Or.inl h)
        · exact Or.inl (Or.inr h.symm)
        · exact Or.inr h

/-- What `getCrdApiGroups` returns on a cluster that lists `items`: the keys
of the map built by the first loop, in range order. -/
theorem getCrdApiGroups_ok (client : Client) (order : RangeOrder)
    (items : List CustomResourceDefinition) (h : client.list = .ok items) :
    getCrdApiGroups client order =
      .ok (order.visit (items.foldl getCrdApiGroups.record makeMap).keys) := by
  simp [getCrdApiGroups, h, foldl_append_singleton]

/-- The scan skips the versions before the first one with `Storage` set. -/
theorem storageSchema_skip (before : List CustomResourceDefinitionVersion)
    (rest : List CustomResourceDefinitionVersion)
    (h : ∀ v ∈ before, v.Storage = false) :
    handleShowCrd.storageSchema (before ++ rest) = handleShowCrd.storageSchema rest := by
  induction before with
  | nil => rfl
  | cons v tail ih =>
    have hv : v.Storage = false := h v (List.mem_cons_self _ _)
    have ht : ∀ w ∈ tail, w.Storage = false := fun w hw => h w (List.mem_cons_of_mem _ hw)
    simp [handleShowCrd.storageSchema, hv, ih ht]

/-- The scan is decided by the first version marked storage: the versions
before it are skipped and the versions after it are never visited. -/
theorem storageSchema_first_storage (versions : List CustomResourceDefinitionVersion)
    (v : CustomResourceDefinitionVersion) (others : List CustomResourceDefinitionVersion)
    (h : versions.filter (fun w => w.Storage) = v :: others) :
    handleShowCrd.storageSchema versions = handleShowCrd.storageSchema [v] := by
  induction versions with
  | nil => simp at h
  | cons w tail ih =>
    by_cases hw : w.Storage = true
    · rw [List.filter_cons_of_pos hw] at h
      have hv : w = v := (List.cons.inj h).1
      subst hv
      simp [handleShowCrd.storageSchema, hw]
    · rw [List.filter_cons_of_neg hw] at h
      simp [handleShowCrd.storageSchema, hw, ih h]

/-- The scan of a list without a version marked storage leaves the schema nil. -/
theorem storageSchema_no_storage (versions : List CustomResourceDefinitionVersion)
    (h : versions.filter (fun w => w.Storage) = []) :
    handleShowCrd.storageSchema versions = .ok none := by
  induction versions with
  | nil => rfl
  | cons w tail ih =>
    by_cases hw : w.Storage = true
    · rw [List.filter_cons_of_pos hw] at h
      exact absurd h (List.cons_ne_nil _ _)
    · rw [List.filter_cons_of_neg hw] at h
      simp [handleShowCrd.storageSchema, hw, ih h]

/-- The handler `handleShowCrd` past its two guards: with a non-empty name
that the cluster resolves and a scan that returns, it executes the template
on the record and the selected schema. -/
theorem handleShowCrd_rendered (client : Client) (tmpl : Template ShowData) (query : Query)
    (crd : CustomResourceDefinition) (schema : Option JSONSchemaProps)
    (hname : query.Get "crdName" ≠ "")
    (hget : client.get (query.Get "crdName") = .ok crd)
    (hscan : handleShowCrd.storageSchema crd.Spec.Versions = .ok schema) :
    handleShowCrd client tmpl query =
      .ok (handleShowCrd.render tmpl { CRD := crd, Schema := schema }) := by
  simp [handleShowCrd, getCrdByName, hname, hget, hscan]

/-- The function `getCrdByName` panics with the text of the error of `Get`. -/
theorem getCrdByName_error (client : Client) (crdName err : String)
    (h : client.get crdName = .error err) :
    getCrdByName client crdName = .error (.panicked err) := by
  simp [getCrdByName, h]

/-- The model cluster fails a `Get` of a name that none of its records carries. -/
theorem clusterClient_get_missing (refusal : String → String)
    (items : List CustomResourceDefinition) (crdName : String)
    (h : ∀ crd ∈ items, crd.Name ≠ crdName) :
    (clusterClient refusal items).get crdName = .error (refusal crdName) := by
  have hfind : items.find? (fun crd => crd.Name == crdName) = none := by
    rw [List.find?_eq_none]
    intro crd hc
    simpa using h crd hc
  simp [clusterClient, hfind]

/-! ## The claims -/

/-- C1: on every sequence of CRD records that the cluster lists,
`getCrdApiGroups` returns, whatever the range order of the map, a list
without duplicates, each element of which is the `Spec.Group` of some record
of the sequence. -/
theorem getCrdApiGroups_nodup_and_sound (client : Client) (order : RangeOrder)
    (items : List CustomResourceDefinition) (h : client.list = .ok items) :
    ∃ names, getCrdApiGroups client order = .ok names ∧ names.Nodup ∧
      ∀ g ∈ names, ∃ crd ∈ items, crd.Spec.Group = g := by
  refine ⟨_, getCrdApiGroups_ok client order items h, ?_, ?_⟩
  · exact (order.visit_perm _).nodup_iff.mpr (foldl_record_nodup items [] List.nodup_nil)
  · intro g hg
    have hk := (order.visit_perm _).mem_iff.mp hg
    rcases (foldl_record_mem items [] g).mp hk with h0 | h1
    · simp at h0
    · exact h1

/-- C1, on the sample cluster (five records, three groups) with the reversed range order. -/
theorem getCrdApiGroups_nodup_and_sound_witness :
    (clusterClient notFoundMessage sampleCrds).list = .ok sampleCrds ∧
    ∃ names, getCrdApiGroups (clusterClient notFoundMessage sampleCrds) RangeOrder.reversed = .ok names ∧
      names.Nodup ∧ ∀ g ∈ names, ∃ crd ∈ sampleCrds, crd.Spec.Group = g :=
  ⟨rfl, getCrdApiGroups_nodup_and_sound (clusterClient notFoundMessage sampleCrds) RangeOrder.reversed
    sampleCrds rfl⟩

/-- C2: on every sequence of CRD records that the cluster lists and every
non-empty group `g`, `getCrds` with `filter.ApiGroup = g` returns records
whose `Spec.Group` is `g`, by equality of strings; a record whose group
differs from `g` is not in the result; and `handleFilterCrds`, asked for
`g`, executes its template on that result. -/
theorem getCrds_only_exact_group (client : Client) (items : List CustomResourceDefinition)
    (g : String) (h : client.list = .ok items) (hg : g ≠ "") :
    ∃ crds, getCrds client { ApiGroup := g } = .ok crds ∧
      (∀ crd ∈ crds, crd.Spec.Group = g) ∧
      (∀ crd : CustomResourceDefinition, crd.Spec.Group ≠ g → crd ∉ crds) ∧
      (∀ (tmpl : Template FilterData) (query : Query), query.Get "apiGroup" = g →
        handleFilterCrds client tmpl query =
          .ok (handleFilterCrds.render tmpl { Crds := crds })) := by
  have hres := getCrds_ok client items g h
  refine ⟨items.filter (fun crd => decide (crd.Spec.Group = g)), hres, ?_, ?_, ?_⟩
  · intro crd hc
    simpa using (List.mem_filter.mp hc).2
  · intro crd hne hc
    exact hne (by simpa using (List.mem_filter.mp hc).2)
  · intro tmpl query hq
    simp only [handleFilterCrds, hq, hg, if_false, hres]

/-- C2, on the sample cluster with the group `example.com`: the record of
the group `Example.com` is among the records and not in the result. -/
theorem getCrds_only_exact_group_witness :
    ((clusterClient notFoundMessage sampleCrds).list = .ok sampleCrds ∧ "example.com" ≠ "") ∧
    shoutingCrd ∈ sampleCrds ∧
    ∃ crds, getCrds (clusterClient notFoundMessage sampleCrds) { ApiGroup := "example.com" } = .ok crds ∧
      (∀ crd ∈ crds, crd.Spec.Group = "example.com") ∧
      (∀ crd : CustomResourceDefinition, crd.Spec.Group ≠ "example.com" → crd ∉ crds) ∧
      (∀ (tmpl : Template FilterData) (query : Query),
        query.Get "apiGroup" = "example.com" →
        handleFilterCrds (clusterClient notFoundMessage sampleCrds) tmpl query =
          .ok (handleFilterCrds.render tmpl { Crds := crds })) :=
  ⟨⟨rfl, by decide⟩, by decide,
    getCrds_only_exact_group (clusterClient notFoundMessage sampleCrds) sampleCrds "example.com" rfl
      (by decide)⟩

/-- C3: when the `apiGroup` of the query is empty or absent,
`handleFilterCrds` answers `http.Error` with status 400 and the text
`No API group selected`, for every cluster (reachable or not, with or without
records) and every template; it never answers with a page listing records. -/
theorem handleFilterCrds_empty_group (client : Client) (tmpl : Template FilterData)
    (query : Query) (h : query.Get "apiGroup" = "") :
    handleFilterCrds client tmpl query =
        .ok (.httpError "No API group selected" StatusBadRequest) ∧
      ∀ body, handleFilterCrds client tmpl query ≠ .ok (.page body) := by
  have hres : handleFilterCrds client tmpl query =
      .ok (.httpError "No API group selected" StatusBadRequest) := by
    simp [handleFilterCrds, h]
  refine ⟨hres, ?_⟩
  intro body hb
  rw [hres] at hb
  cases hb

/-- C3, on the sample cluster with the query `apiGroup=`. -/
theorem handleFilterCrds_empty_group_witness :
    Query.Get [("apiGroup", "")] "apiGroup" = "" ∧
    handleFilterCrds (clusterClient notFoundMessage sampleCrds) plainTemplate [("apiGroup", "")] =
        .ok (.httpError "No API group selected" 400) ∧
      ∀ body, handleFilterCrds (clusterClient notFoundMessage sampleCrds) plainTemplate [("apiGroup", "")] ≠
        .ok (.page body) :=
  ⟨rfl, handleFilterCrds_empty_group (clusterClient notFoundMessage sampleCrds) plainTemplate
    [("apiGroup", "")] rfl⟩

/-- C4, refuted as stated: the record `twoStorageCrd` has two versions
marked storage, and the scan of `handleShowCrd` returns a schema for it, the
one of the first of the two; the handler answers with the page. -/
theorem storageSchema_two_storage_returns_schema :
    (twoStorageCrd.Spec.Versions.filter (fun w => w.Storage)).length = 2 ∧
    handleShowCrd.storageSchema twoStorageCrd.Spec.Versions = .ok (some widgetSchema) ∧
    handleShowCrd (clusterClient notFoundMessage [twoStorageCrd]) plainTemplate
      [("crdName", "doubles.example.com")] = .ok (.page "<html>") :=
  ⟨rfl, rfl, rfl⟩

/-- C4, amended: for a record that the cluster resolves, when no version is
marked storage the scan of `handleShowCrd` selects no schema and raises no
fault, and the handler executes its template with a nil schema instead of
answering with an error; when two or more versions are marked storage the
scan stops at the first of them in list order and, its `Schema` pointer
being set, selects the `OpenAPIV3Schema` of that version, which the handler
hands to its template. -/
theorem handleShowCrd_zero_or_many_storage (client : Client) (tmpl : Template ShowData)
    (query : Query) (crd : CustomResourceDefinition)
    (hname : query.Get "crdName" ≠ "")
    (hget : client.get (query.Get "crdName") = .ok crd) :
    (crd.Spec.Versions.filter (fun w => w.Storage) = [] →
      handleShowCrd.storageSchema crd.Spec.Versions = .ok none ∧
      handleShowCrd client tmpl query =
        .ok (handleShowCrd.render tmpl { CRD := crd, Schema := none })) ∧
    (∀ (v w : CustomResourceDefinitionVersion) (others : List CustomResourceDefinitionVersion)
        (validation : CustomResourceValidation),
      crd.Spec.Versions.filter (fun w => w.Storage) = v :: w :: others →
      v.Schema = some validation →
      handleShowCrd.storageSchema crd.Spec.Versions = .ok validation.OpenAPIV3Schema ∧
      handleShowCrd client tmpl query =
        .ok (handleShowCrd.render tmpl
          { CRD := crd, Schema := validation.OpenAPIV3Schema })) := by
  constructor
  · intro h0
    have hscan := storageSchema_no_storage crd.Spec.Versions h0
    exact ⟨hscan, handleShowCrd_rendered client tmpl query crd none hname hget hscan⟩
  · intro v w others validation hmany hs
    have hscan : handleShowCrd.storageSchema crd.Spec.Versions =
        .ok validation.OpenAPIV3Schema := by
      rw [storageSchema_first_storage crd.Spec.Versions v (w :: others) hmany]
      have hv : v.Storage = true := by
        have hmem : v ∈ crd.Spec.Versions.filter (fun w => w.Storage) := by
          rw [hmany]; exact List.mem_cons_self _ _
        simpa using (List.mem_filter.mp hmem).2
      simp [handleShowCrd.storageSchema, hv, hs]
    exact ⟨hscan, handleShowCrd_rendered client tmpl query crd _ hname hget hscan⟩

/-- C4, amended, on the records `noStorageCrd` and `twoStorageCrd` of one cluster. -/
theorem handleShowCrd_zero_or_many_storage_witness :
    (handleShowCrd.storageSchema noStorageCrd.Spec.Versions = .ok none ∧
      handleShowCrd (clusterClient notFoundMessage [noStorageCrd, twoStorageCrd]) plainTemplate
        [("crdName", "orphans.example.com")] =
        .ok (handleShowCrd.render plainTemplate { CRD := noStorageCrd, Schema := none })) ∧
    (handleShowCrd.storageSchema twoStorageCrd.Spec.Versions = .ok (some widgetSchema) ∧
      handleShowCrd (clusterClient notFoundMessage [noStorageCrd, twoStorageCrd]) plainTemplate
        [("crdName", "doubles.example.com")] =
        .ok (handleShowCrd.render plainTemplate
          { CRD := twoStorageCrd, Schema := some widgetSchema })) :=
  ⟨(handleShowCrd_zero_or_many_storage (clusterClient notFoundMessage [noStorageCrd, twoStorageCrd])
      plainTemplate [("crdName", "orphans.example.com")] noStorageCrd (by decide) rfl).1 rfl,
   (handleShowCrd_zero_or_many_storage (clusterClient notFoundMessage [noStorageCrd, twoStorageCrd])
      plainTemplate [("crdName", "doubles.example.com")] twoStorageCrd (by decide) rfl).2
      storedVersion secondStoredVersion [] { OpenAPIV3Schema := some widgetSchema } rfl rfl⟩

/-- C5, at the failing input: the storage version of `schemalessCrd` has a
nil `Schema`; the scan of `handleShowCrd` selects `OpenAPIV3Schema` through
that nil pointer, and the handler panics with the nil dereference for every
template. A storage version whose `Schema` is set and whose
`OpenAPIV3Schema` is nil is scanned without a panic and selects no schema. -/
theorem handleShowCrd_nil_schema_dereference (tmpl : Template ShowData) :
    schemalessCrd.Spec.Versions.filter (fun w => w.Storage) = [schemalessVersion] ∧
    schemalessVersion.Schema = none ∧
    handleShowCrd.storageSchema schemalessCrd.Spec.Versions = .error .nilDereference ∧
    handleShowCrd (clusterClient notFoundMessage [schemalessCrd]) tmpl [("crdName", "bare.example.com")] =
      .error .nilDereference ∧
    handleShowCrd.storageSchema [legacyVersion, rootlessVersion] = .ok none :=
  ⟨rfl, rfl, rfl, rfl, rfl⟩

/-- C6, refuted as stated: no record of the sample cluster is named
`missing-crd`, and `getCrdByName` panics on that name instead of returning
an error; the panic unwinds `handleShowCrd`, which writes no response. -/
theorem getCrdByName_missing_crd_panics :
    (∀ crd ∈ sampleCrds, crd.Name ≠ "missing-crd") ∧
    getCrdByName (clusterClient notFoundMessage sampleCrds) "missing-crd" =
      .error (.panicked (notFoundMessage "missing-crd")) ∧
    handleShowCrd (clusterClient notFoundMessage sampleCrds) plainTemplate [("crdName", "missing-crd")] =
      .error (.panicked (notFoundMessage "missing-crd")) :=
  ⟨by decide, rfl, rfl⟩

/-- C6, amended: for every client and every CRD name on which the `Get`
call fails, as it does for a name that no record of the cluster carries,
`getCrdByName` panics with the text of the error of that call, whatever the
text is; `handleShowCrd`, called with that name (not empty) in its query, is
unwound by the same panic and writes no response. -/
theorem getCrdByName_missing_panics (client : Client) (crdName err : String)
    (tmpl : Template ShowData) (query : Query)
    (hget : client.get crdName = .error err)
    (hquery : query.Get "crdName" = crdName) (hname : crdName ≠ "") :
    getCrdByName client crdName = .error (.panicked err) ∧
    handleShowCrd client tmpl query = .error (.panicked err) := by
  have hpanic := getCrdByName_error client crdName err hget
  refine ⟨hpanic, ?_⟩
  simp [handleShowCrd, hquery, hname, hpanic]

/-- C6, amended, on the sample cluster and a name that none of its records carries. -/
theorem getCrdByName_missing_panics_witness :
    ((∀ crd ∈ sampleCrds, crd.Name ≠ "gizmos.example.com") ∧
      (clusterClient notFoundMessage sampleCrds).get "gizmos.example.com" =
        .error (notFoundMessage "gizmos.example.com") ∧
      Query.Get [("crdName", "gizmos.example.com")] "crdName" = "gizmos.example.com" ∧
      "gizmos.example.com" ≠ "") ∧
    getCrdByName (clusterClient notFoundMessage sampleCrds) "gizmos.example.com" =
      .error (.panicked (notFoundMessage "gizmos.example.com")) ∧
    handleShowCrd (clusterClient notFoundMessage sampleCrds) plainTemplate
      [("crdName", "gizmos.example.com")] =
      .error (.panicked (notFoundMessage "gizmos.example.com")) :=
  ⟨⟨by decide, rfl, rfl, by decide⟩,
    getCrdByName_missing_panics (clusterClient notFoundMessage sampleCrds)
      "gizmos.example.com" (notFoundMessage "gizmos.example.com") plainTemplate
      [("crdName", "gizmos.example.com")] rfl rfl (by decide)⟩

/-- C7: for every versions list with exactly one version marked storage,
whose `Schema` pointer is set, the scan of `handleShowCrd` selects the
`OpenAPIV3Schema` of that version; and wherever that version is put, after
any versions not marked storage and before any versions not marked storage,
the scan selects the same schema. -/
theorem storageSchema_single_storage (versions : List CustomResourceDefinitionVersion)
    (v : CustomResourceDefinitionVersion) (validation : CustomResourceValidation)
    (hone : versions.filter (fun w => w.Storage) = [v])
    (hs : v.Schema = some validation) :
    handleShowCrd.storageSchema versions = .ok validation.OpenAPIV3Schema ∧
    ∀ before after : List CustomResourceDefinitionVersion,
      (∀ w ∈ before, w.Storage = false) → (∀ w ∈ after, w.Storage = false) →
      handleShowCrd.storageSchema (before ++ v :: after) =
        .ok validation.OpenAPIV3Schema := by
  have hv : v.Storage = true := by
    have hmem : v ∈ versions.filter (fun w => w.Storage) := by
      rw [hone]; exact List.mem_cons_self _ _
    simpa using (List.mem_filter.mp hmem).2
  constructor
  · rw [storageSchema_first_storage versions v [] hone]
    simp [handleShowCrd.storageSchema, hv, hs]
  · intro before after hb _
    rw [storageSchema_skip before (v :: after) hb]
    simp [handleShowCrd.storageSchema, hv, hs]

/-- C7, on the versions of `widgetsCrd`: the storage version is the second of three. -/
theorem storageSchema_single_storage_witness :
    (widgetsCrd.Spec.Versions.filter (fun w => w.Storage) = [storedVersion] ∧
      storedVersion.Schema = some { OpenAPIV3Schema := some widgetSchema }) ∧
    handleShowCrd.storageSchema widgetsCrd.Spec.Versions = .ok (some widgetSchema) :=
  ⟨⟨rfl, rfl⟩,
    (storageSchema_single_storage widgetsCrd.Spec.Versions storedVersion
      { OpenAPIV3Schema := some widgetSchema } rfl rfl).1⟩

/-- C8: `derefBool` of the nil pointer is false, and `derefBool` of a
pointer to a boolean is that boolean; so a schema node whose nullable marker
is absent is treated as not nullable, its type label being its bare type,
while a node whose marker is present is nullable exactly when the marker
says so. -/
theorem derefBool_absent_present :
    derefBool none = false ∧ (∀ v : Bool, derefBool (some v) = v) ∧
    (∀ b : Option Bool, (derefBool b = true ↔ b = some true)) ∧
    (∀ type : Option String,
      SchemaNode.isNullable { type := type, nullable := none } = false ∧
      SchemaNode.typeLabel { type := type, nullable := none } =
        (match type with
          | none => "object"
          | some typeName => typeName)) ∧
    (∀ (type : Option String) (v : Bool),
      SchemaNode.isNullable { type := type, nullable := some v } = v) ∧
    (∀ node : SchemaNode, node.isNullable = true ↔ node.nullable = some true) := by
  have hiff : ∀ b : Option Bool, (derefBool b = true ↔ b = some true) := by
    intro b
    cases b with
    | none => simp [derefBool]
    | some v => simp [derefBool]
  refine ⟨rfl, fun _ => rfl, hiff, ?_, fun _ _ => rfl, fun node => hiff node.nullable⟩
  intro type
  refine ⟨rfl, ?_⟩
  simp [SchemaNode.typeLabel, SchemaNode.isNullable, derefBool]

/-- C9: on every sequence of CRD records that the cluster lists and every
group `g`, `getCrds` with `filter.ApiGroup = g` returns the records whose
`Spec.Group` is `g`, in the order of the listing: the result is a
subsequence of the listing, each record of group `g` occurs in it as many
times as in the listing, and it is the empty sequence, not a fault, when no
record is of group `g`. -/
theorem getCrds_exact_subsequence (client : Client) (items : List CustomResourceDefinition)
    (g : String) (h : client.list = .ok items) :
    ∃ crds, getCrds client { ApiGroup := g } = .ok crds ∧
      crds = items.filter (fun crd => decide (crd.Spec.Group = g)) ∧
      crds.Sublist items ∧
      (∀ crd : CustomResourceDefinition, crd ∈ crds ↔ crd ∈ items ∧ crd.Spec.Group = g) ∧
      (∀ crd : CustomResourceDefinition, crd.Spec.Group = g →
        crds.count crd = items.count crd) ∧
      ((∀ crd ∈ items, crd.Spec.Group ≠ g) → crds = []) := by
  refine ⟨_, getCrds_ok client items g h, rfl, List.filter_sublist items, ?_, ?_, ?_⟩
  · intro crd
    simp [List.mem_filter]
  · intro crd hc
    exact List.count_filter (by simpa using hc)
  · intro hnone
    rw [List.filter_eq_nil_iff]
    intro crd hc
    simpa using hnone crd hc

/-- C9, on the sample cluster with the group `example.com`, of which
`widgetsCrd` is listed twice, and with a group of no record. -/
theorem getCrds_exact_subsequence_witness :
    (clusterClient notFoundMessage sampleCrds).list = .ok sampleCrds ∧
    getCrds (clusterClient notFoundMessage sampleCrds) { ApiGroup := "example.com" } =
      .ok [widgetsCrd, gadgetsCrd, widgetsCrd] ∧
    getCrds (clusterClient notFoundMessage sampleCrds) { ApiGroup := "vanished.io" } = .ok [] ∧
    ∃ crds, getCrds (clusterClient notFoundMessage sampleCrds) { ApiGroup := "example.com" } = .ok crds ∧
      crds = sampleCrds.filter (fun crd => decide (crd.Spec.Group = "example.com")) ∧
      crds.Sublist sampleCrds ∧
      (∀ crd : CustomResourceDefinition,
        crd ∈ crds ↔ crd ∈ sampleCrds ∧ crd.Spec.Group = "example.com") ∧
      (∀ crd : CustomResourceDefinition, crd.Spec.Group = "example.com" →
        crds.count crd = sampleCrds.count crd) ∧
      ((∀ crd ∈ sampleCrds, crd.Spec.Group ≠ "example.com") → crds = []) :=
  ⟨rfl, rfl, rfl,
    getCrds_exact_subsequence (clusterClient notFoundMessage sampleCrds) sampleCrds "example.com" rfl⟩

/-- C10: on every sequence of CRD records that the cluster lists,
`getCrdApiGroups` returns, whatever the range order of the map, a list in
which the `Spec.Group` of every record occurs and whose length is the number
of distinct group values; on the empty sequence it returns the empty list. -/
theorem getCrdApiGroups_complete (client : Client) (order : RangeOrder)
    (items : List CustomResourceDefinition) (h : client.list = .ok items) :
    ∃ names, getCrdApiGroups client order = .ok names ∧
      (∀ crd ∈ items, crd.Spec.Group ∈ names) ∧
      names.length = (items.map (fun crd => crd.Spec.Group)).toFinset.card ∧
      (items = [] → names = []) := by
  refine ⟨_, getCrdApiGroups_ok client order items h, ?_, ?_, ?_⟩
  · intro crd hc
    apply (order.visit_perm _).mem_iff.mpr
    exact (foldl_record_mem items [] _).mpr (Or.inr ⟨crd, hc, rfl⟩)
  · rw [(order.visit_perm _).length_eq]
    show (items.foldl getCrdApiGroups.record (some [])).keys.length = _
    rw [← List.toFinset_card_of_nodup (foldl_record_nodup items [] List.nodup_nil)]
    congr 1
    ext g
    simp only [List.mem_toFinset, foldl_record_mem items [] g, List.mem_map]
    simp
  · intro hnil
    subst hnil
    exact List.Perm.eq_nil (order.visit_perm _)

/-- C10, on the sample cluster (five records, three groups) and the insertion range order. -/
theorem getCrdApiGroups_complete_witness :
    (clusterClient notFoundMessage sampleCrds).list = .ok sampleCrds ∧
    getCrdApiGroups (clusterClient notFoundMessage sampleCrds) RangeOrder.insertion =
      .ok ["example.com", "cert-manager.io", "Example.com"] ∧
    getCrdApiGroups (clusterClient notFoundMessage []) RangeOrder.insertion = .ok [] ∧
    ∃ names, getCrdApiGroups (clusterClient notFoundMessage sampleCrds) RangeOrder.insertion = .ok names ∧
      (∀ crd ∈ sampleCrds, crd.Spec.Group ∈ names) ∧
      names.length = (sampleCrds.map (fun crd => crd.Spec.Group)).toFinset.card ∧
      (sampleCrds = [] → names = []) :=
  ⟨rfl, rfl, rfl,
    getCrdApiGroups_complete (clusterClient notFoundMessage sampleCrds) RangeOrder.insertion sampleCrds rfl⟩

end Crdviz
